import Mathlib

/-!
Verification development for the Hyperliquid HIP3 n8n node
(`HyperliquidHip3.execute` in the node source, plus the credential type).

The node builds JSON action payloads for a trading API, hashes and signs
them, and assembles authenticated request envelopes.  We shallowly embed
the relevant parts of `execute`:

* JavaScript objects are embedded as a `JVal` JSON tree whose object
  fields keep insertion order (JS objects preserve insertion order, and
  `JSON.stringify` serializes in that order).
* JavaScript numbers are idealized as exact rationals (`ℚ`); the
  rendering `jnumToString` is an injective stand-in for the JavaScript
  number-to-string conversion and agrees with it on the integer values
  appearing in the claims.
* The cryptographic primitives `keccak256` and `signMessage` live in the
  external `ethers` library, not in this repository; they are modelled as
  an arbitrary pair of pure functions (a `Crypto` record) that the
  theorems quantify over.
* Optional string credentials use `""` for the JavaScript falsy
  `undefined`/empty value, matching the credential defaults.
-/

/-- JSON values as produced by the node.  `jobj` keeps fields in insertion
order; a field whose JS value is `undefined` is simply absent from the
list, matching `JSON.stringify` omission. -/
inductive JVal where
  | jnull : JVal
  | jbool : Bool → JVal
  | jnum : ℚ → JVal
  | jstr : String → JVal
  | jarr : List JVal → JVal
  | jobj : List (String × JVal) → JVal

/-- Decimal rendering of an integer, as JavaScript renders integral
numbers. -/
def intToString (n : ℤ) : String := toString n

/-- Stand-in for the JavaScript number-to-string conversion, total and
injective on `ℚ`.  On integers (the only numbers the proved claims
evaluate) it coincides with `String(n)` in JavaScript. -/
def jnumToString (q : ℚ) : String :=
  if q.den = 1 then intToString q.num
  else intToString q.num ++ "/" ++ toString q.den

/-- JSON string escaping for the quote and backslash characters (the
inputs handled by the node contain neither, but `JSON.stringify` escapes
them). -/
def jsonEscapeChar (c : Char) : String :=
  if c = '"' then "\\\"" else if c = '\\' then "\\\\" else String.singleton c

def jsonEscape (s : String) : String :=
  String.join (s.toList.map jsonEscapeChar)

mutual

/-- `JSON.stringify` on the embedded values: fields in insertion order,
no whitespace, `undefined` fields already absent from `jobj` lists. -/
def JVal.serialize : JVal → String
  | JVal.jnull => "null"
  | JVal.jbool b => if b then "true" else "false"
  | JVal.jnum q => jnumToString q
  | JVal.jstr s => "\"" ++ jsonEscape s ++ "\""
  | JVal.jarr xs => "[" ++ serializeList xs ++ "]"
  | JVal.jobj fs => "\x7b" ++ serializeFields fs ++ "\x7d"

def serializeList : List JVal → String
  | [] => ""
  | [x] => JVal.serialize x
  | x :: y :: xs => JVal.serialize x ++ "," ++ serializeList (y :: xs)

def serializeFields : List (String × JVal) → String
  | [] => ""
  | [(k, v)] => "\"" ++ jsonEscape k ++ "\":" ++ JVal.serialize v
  | (k, v) :: f :: fs =>
      "\"" ++ jsonEscape k ++ "\":" ++ JVal.serialize v ++ "," ++ serializeFields (f :: fs)

end

/-- Field access on a JSON object (`body.action` etc.); `none` when the
field is absent or the value is not an object. -/
def JVal.getField : JVal → String → Option JVal
  | JVal.jobj fs, k => fs.lookup k
  | _, _ => none

/-! ## Credentials and effective trading address -/

/-- The `hyperliquidApi` credential record.  All four fields are strings
with default `""`; the optional `walletAddress` and `vaultAddress` use
`""` for "unset" (JavaScript falsy). -/
structure Credentials where
  privateKey : String
  walletAddress : String
  network : String
  vaultAddress : String

/-- JavaScript `a || b` on strings: `""` is the falsy string. -/
def jsOr (a b : String) : String := if a = "" then b else a

/-- `const address = vaultAddress || credentials.walletAddress || wallet.address`.
The key-derived `wallet.address` comes from the external `ethers` library
and is passed in as `derivedAddress`. -/
def effectiveAddress (credentials : Credentials) (derivedAddress : String) : String :=
  jsOr credentials.vaultAddress (jsOr credentials.walletAddress derivedAddress)

/-- `baseUrl` selection from the credential network flag. -/
def baseUrlOf (network : String) : String :=
  if network = "testnet" then "https://api.hyperliquid-testnet.xyz"
  else "https://api.hyperliquid.xyz"

/-! ## JavaScript numeric parsing and string slicing -/

/-- Value of a list of decimal digit characters. -/
def digitsVal (l : List Char) : ℕ :=
  l.foldl (fun a c => a * 10 + (c.toNat - 48)) 0

/-- JavaScript `parseInt(s)` (radix 10): skip leading spaces, optional
sign, then the longest decimal-digit prefix; `none` models the `NaN`
result when no digit is found. -/
def jsParseInt (s : String) : Option ℤ :=
  let l := s.toList.dropWhile (fun c => c = ' ')
  let sign : Bool := match l with
    | '-' :: _ => true
    | _ => false
  let l' := match l with
    | '-' :: t => t
    | '+' :: t => t
    | t => t
  let ds := l'.takeWhile Char.isDigit
  if ds.isEmpty then none
  else some (if sign then -(digitsVal ds : ℤ) else (digitsVal ds : ℤ))

/-- JavaScript `parseFloat(s)` restricted to plain decimal notation:
optional sign, integer digits, optional fraction.  `none` models `NaN`. -/
def jsParseFloat (s : String) : Option ℚ :=
  let l := s.toList.dropWhile (fun c => c = ' ')
  let sign : Bool := match l with
    | '-' :: _ => true
    | _ => false
  let l' := match l with
    | '-' :: t => t
    | '+' :: t => t
    | t => t
  let ip := l'.takeWhile Char.isDigit
  let rest := l'.drop ip.length
  let fp := match rest with
    | '.' :: t => t.takeWhile Char.isDigit
    | _ => []
  if ip.isEmpty ∧ fp.isEmpty then none
  else
    let mag : ℚ := (digitsVal ip : ℚ) + (digitsVal fp : ℚ) / ((10 : ℚ) ^ fp.length)
    some (if sign then -mag else mag)

/-- Value of a hexadecimal digit character, or `none`. -/
def hexDigitVal (c : Char) : Option ℕ :=
  if '0' ≤ c ∧ c ≤ '9' then some (c.toNat - 48)
  else if 'a' ≤ c ∧ c ≤ 'f' then some (c.toNat - 87)
  else if 'A' ≤ c ∧ c ≤ 'F' then some (c.toNat - 55)
  else none

/-- JavaScript `parseInt(s, 16)`: longest hex-digit prefix, `none` for
`NaN`.  (Sign and `0x` prefix handling are irrelevant to the slices the
node parses.) -/
def jsParseIntHex (s : String) : Option ℕ :=
  let ds := (s.toList.takeWhile (fun c => (hexDigitVal c).isSome)).filterMap hexDigitVal
  if ds.isEmpty then none
  else some (ds.foldl (fun a d => a * 16 + d) 0)

/-- JavaScript `s.slice(a, b)` on strings (for the 0 ≤ a ≤ b indices the
node uses). -/
def strSlice (s : String) (a b : ℕ) : String :=
  String.mk ((s.toList.drop a).take (b - a))

/-! ## Canonical signing and request assembly

The node hashes `JSON.stringify({action, nonce, vaultAddress})` with
`ethers.utils.keccak256` and signs the hash bytes with
`wallet.signMessage`.  Both primitives live in the external `ethers`
library; they are modelled as an arbitrary pair of pure functions. -/

/-- External cryptographic primitives (from `ethers`): `keccak256` maps
the serialized envelope to a hash string, `signMessage` maps
`(privateKey, hash)` to the 132-character `0x`-prefixed signature hex
string. -/
structure Crypto where
  keccak256 : String → String
  signMessage : String → String → String

/-- Fields of the signed envelope `{action, nonce, vaultAddress:
vaultAddress || undefined}`: when `vaultAddress` is falsy (`""`) the
value is `undefined` and `JSON.stringify` omits the key. -/
def envelopeFields (action : JVal) (nonce : ℕ) (vaultAddress : String) : List (String × JVal) :=
  [("action", action), ("nonce", JVal.jnum (nonce : ℚ))] ++
    (if vaultAddress = "" then [] else [("vaultAddress", JVal.jstr vaultAddress)])

/-- `signature.slice(0, 66)` — the `r` component. -/
def sigR (signature : String) : String := strSlice signature 0 66

/-- `"0x" + signature.slice(66, 130)` — the `s` component. -/
def sigS (signature : String) : String := "0x" ++ strSlice signature 66 130

/-- `parseInt(signature.slice(130, 132), 16)` — the `v` component; a
`NaN` parse serializes as JSON `null`. -/
def sigV (signature : String) : JVal :=
  match jsParseIntHex (strSlice signature 130 132) with
  | some k => JVal.jnum (k : ℚ)
  | none => JVal.jnull

/-- Everything the sign-and-dispatch block of a signed operation
produces: the envelope that was hashed, the hash, the raw signature, and
the request body posted to `/exchange`. -/
structure SignedDispatch where
  message : JVal
  hash : String
  signature : String
  body : JVal

/-- The common block of `placeOrder` / `cancelOrder` / `cancelAllOrders`:
build `message = {action, nonce, vaultAddress || undefined}`, hash its
serialization, sign the hash, and assemble the `/exchange` body
`{action, nonce, signature: {r, s, v}, vaultAddress || undefined}`. -/
def signAndDispatch (crypto : Crypto) (privateKey vaultAddress : String)
    (action : JVal) (nonce : ℕ) : SignedDispatch :=
  let message := JVal.jobj (envelopeFields action nonce vaultAddress)
  let hash := crypto.keccak256 message.serialize
  let signature := crypto.signMessage privateKey hash
  let body := JVal.jobj
    ([("action", action), ("nonce", JVal.jnum (nonce : ℚ)),
      ("signature", JVal.jobj
        [("r", JVal.jstr (sigR signature)),
         ("s", JVal.jstr (sigS signature)),
         ("v", sigV signature)])] ++
      (if vaultAddress = "" then [] else [("vaultAddress", JVal.jstr vaultAddress)]))
  ⟨message, hash, signature, body⟩

/-! ## Action builders -/

/-- JavaScript `s.includes(c)` for a single-character needle. -/
def includesChar (s : String) (c : Char) : Bool := s.data.contains c

/-- The three `NodeOperationError` throw sites of the `placeOrder`
branch, one constructor per source throw; `message` recovers the exact
thrown message.  In the taxonomy of the spec `assetFormat` and
`priceRequired` are the `ValidationError`s and `midUnavailable` is the
`PriceUnavailableError`. -/
inductive NodeError where
  | assetFormat : NodeError
  | priceRequired : NodeError
  | midUnavailable : String → NodeError
  deriving DecidableEq

/-- The exact message of each `NodeOperationError`. -/
def NodeError.message : NodeError → String
  | NodeError.assetFormat =>
    "HIP3 asset must be in format dex_name:ASSET (e.g., xyz:XYZ100)"
  | NodeError.priceRequired => "Price is required for limit orders"
  | NodeError.midUnavailable asset => "Could not find mid price for " ++ asset

/-- `limitPx = parseFloat(midPrice) * 1.05` for side `B`, `* 0.95`
otherwise, on the parsed mid price. -/
def marketLimitPx (side : String) (mid : ℚ) : ℚ :=
  if side = "B" then mid * 1.05 else mid * 0.95

/-- The single order object of a `placeOrder` action, fields in source
order: `{a: 0, b, p, s, r, t: {limit: {tif}}, c: asset}`. -/
def orderObj (side limitPx size : String) (reduceOnly : Bool)
    (orderType : String) (asset : String) : JVal :=
  JVal.jobj
    [("a", JVal.jnum 0),
     ("b", JVal.jbool (side = "B")),
     ("p", JVal.jstr limitPx),
     ("s", JVal.jstr size),
     ("r", JVal.jbool reduceOnly),
     ("t", JVal.jobj [("limit", JVal.jobj
        [("tif", JVal.jstr (if orderType = "market" then "Ioc" else "Gtc"))])]),
     ("c", JVal.jstr asset)]

/-- The `placeOrder` action construction up to the point where `action`
exists, including both validations and the market-order mid-price path.
`mids` models the `allMids` response `marketInfo` as a partial map from
asset name to mid-price string (`none` = property absent, hence
`undefined`). -/
def buildOrderAction (asset side size orderType : String) (reduceOnly : Bool)
    (price : String) (mids : String → Option String) : Except NodeError JVal :=
  if ¬ includesChar asset ':' then Except.error NodeError.assetFormat
  else
    (if orderType = "limit" then
        if price = "" then Except.error NodeError.priceRequired else Except.ok price
      else
        match mids asset with
        | none => Except.error (NodeError.midUnavailable asset)
        | some midPrice =>
          if midPrice = "" then Except.error (NodeError.midUnavailable asset)
          else Except.ok
            (match jsParseFloat midPrice with
              | some q => jnumToString (marketLimitPx side q)
              | none => "NaN")).map
      (fun limitPx =>
        JVal.jobj
          [("type", JVal.jstr "order"),
           ("orders", JVal.jarr [orderObj side limitPx size reduceOnly orderType asset]),
           ("grouping", JVal.jstr "na")])

/-- The `cancelOrder` action `{type: cancel, cancels: [{a: 0,
o: parseInt(orderId), c: coin}]}`.  There is no validation: a
non-numeric `orderId` makes `parseInt` return `NaN`, which
`JSON.stringify` renders as `null`. -/
def buildCancelAction (orderId coin : String) : JVal :=
  JVal.jobj
    [("type", JVal.jstr "cancel"),
     ("cancels", JVal.jarr
       [JVal.jobj
         [("a", JVal.jnum 0),
          ("o", match jsParseInt orderId with
                | some k => JVal.jnum (k : ℚ)
                | none => JVal.jnull),
          ("c", JVal.jstr coin)]])]

/-- The `cancelAllOrders` action `{type: cancelByCloid, cancels:
[{asset, cloid: null}]}` — built for any asset string, with no format
validation. -/
def buildCancelAllAction (asset : String) : JVal :=
  JVal.jobj
    [("type", JVal.jstr "cancelByCloid"),
     ("cancels", JVal.jarr
       [JVal.jobj [("asset", JVal.jstr asset), ("cloid", JVal.jnull)]])]

/-! ## Per-operation pipelines

Each signed operation builds its action, then runs the sign-and-dispatch
block with `nonce = Date.now()` (passed in as `now`) and the credential
private key and vault address. -/

/-- The `placeOrder` branch of `execute` for one item: validation and
action build, then sign and dispatch. -/
def placeOrderRun (crypto : Crypto) (credentials : Credentials) (now : ℕ)
    (asset side size orderType : String) (reduceOnly : Bool) (price : String)
    (mids : String → Option String) : Except NodeError SignedDispatch :=
  (buildOrderAction asset side size orderType reduceOnly price mids).map
    (fun action => signAndDispatch crypto credentials.privateKey credentials.vaultAddress action now)

/-- The `cancelOrder` branch for one item.  It is total: no input makes
it raise an error. -/
def cancelOrderRun (crypto : Crypto) (credentials : Credentials) (now : ℕ)
    (orderId coin : String) : SignedDispatch :=
  signAndDispatch crypto credentials.privateKey credentials.vaultAddress
    (buildCancelAction orderId coin) now

/-- The `cancelAllOrders` branch for one item.  It is total: any asset
string, colon or not, is accepted. -/
def cancelAllOrdersRun (crypto : Crypto) (credentials : Credentials) (now : ℕ)
    (asset : String) : SignedDispatch :=
  signAndDispatch crypto credentials.privateKey credentials.vaultAddress
    (buildCancelAllAction asset) now

/-! ## Read-only info queries -/

/-- A `POST {baseUrl}/info` request as the node assembles it. -/
structure InfoRequest where
  url : String
  body : JVal

/-- The `getPositions` request `{type: clearinghouseState, user:
address}`. -/
def getPositionsRequest (baseUrl address : String) : InfoRequest :=
  ⟨baseUrl ++ "/info",
   JVal.jobj [("type", JVal.jstr "clearinghouseState"), ("user", JVal.jstr address)]⟩

/-- The `getAccountSummary` request `{type: clearinghouseState, user:
address}` (its own branch in the source, written out separately). -/
def getAccountSummaryRequest (baseUrl address : String) : InfoRequest :=
  ⟨baseUrl ++ "/info",
   JVal.jobj [("type", JVal.jstr "clearinghouseState"), ("user", JVal.jstr address)]⟩

/-! ## Batch loop and per-item error isolation -/

/-- One entry of the node output (`INodeExecutionData`): the JSON
payload and the `pairedItem.item` index. -/
structure OutItem where
  json : JVal
  pairedItem : ℕ

/-- The `{error: error.message}` payload pushed when `continueOnFail()`
is true. -/
def errorJson (msg : String) : JVal := JVal.jobj [("error", JVal.jstr msg)]

/-- The `for (let i = 0; ...)` loop with its `try`/`catch`: `step i` is
the (possibly failing) body for item `i`; on failure, continue with an
`{error}` entry when `continueOnFail` holds, otherwise re-throw, aborting
the batch. -/
def runItems (continueOnFail : Bool) (step : ℕ → Except String JVal) :
    List ℕ → Except String (List OutItem)
  | [] => Except.ok []
  | i :: rest =>
    match step i with
    | Except.ok response =>
      (runItems continueOnFail step rest).map (fun tail => ⟨response, i⟩ :: tail)
    | Except.error msg =>
      if continueOnFail then
        (runItems continueOnFail step rest).map (fun tail => ⟨errorJson msg, i⟩ :: tail)
      else Except.error msg

/-- The whole batch: items `0, …, n-1` in order. -/
def runBatch (continueOnFail : Bool) (step : ℕ → Except String JVal) (n : ℕ) :
    Except String (List OutItem) :=
  runItems continueOnFail step (List.range n)

/-- The entry item `i` contributes under isolation: the raw response on
success, the `{error}` wrapper on failure, always paired to `i`. -/
def isolatedItem (step : ℕ → Except String JVal) (i : ℕ) : OutItem :=
  match step i with
  | Except.ok response => ⟨response, i⟩
  | Except.error msg => ⟨errorJson msg, i⟩

/-! ## Envelope extraction helper for the signing invariant -/

/-- The `(k, v)` entry of field `k` of an object, or `[]` when absent. -/
def fieldEntry (j : JVal) (k : String) : List (String × JVal) :=
  match j.getField k with
  | some v => [(k, v)]
  | none => []

/-- The `{action, nonce, vaultAddress}` sub-object of a request body, in
envelope field order — what a verifier would re-serialize to check the
signature. -/
def extractEnvelope (j : JVal) : JVal :=
  JVal.jobj (fieldEntry j "action" ++ fieldEntry j "nonce" ++ fieldEntry j "vaultAddress")

/-- The dispatched body carries exactly the `action`/`nonce`/`vaultAddress`
triple of the envelope that was hashed and signed: each of the three
fields agrees (including omission of an unset `vaultAddress`), and the
re-serialized triple is byte-identical to the signed serialization. -/
def envelopeIntact (sd : SignedDispatch) : Prop :=
  sd.body.getField "action" = sd.message.getField "action" ∧
  sd.body.getField "nonce" = sd.message.getField "nonce" ∧
  sd.body.getField "vaultAddress" = sd.message.getField "vaultAddress" ∧
  (extractEnvelope sd.body).serialize = sd.message.serialize

/-- The `p` (limit price) field of the first order of an `order` action. -/
def firstOrderP (action : JVal) : Option JVal :=
  match action.getField "orders" with
  | some (JVal.jarr (o :: _)) => o.getField "p"
  | _ => none

/-- The `(r, s, v)` signature components as they appear in the request
body. -/
def sigTripleOf (sd : SignedDispatch) : String × String × JVal :=
  (sigR sd.signature, sigS sd.signature, sigV sd.signature)

/-! ## Concrete fixtures used by the witnesses -/

/-- A concrete instance of the external primitives (the theorems hold for
any instance; witnesses need one to evaluate). -/
def sampleCrypto : Crypto :=
  ⟨fun s => "0xHASH[" ++ s ++ "]", fun pk h => pk ++ "/" ++ h⟩

/-- Credentials with a vault address set and no wallet override. -/
def sampleCredentials : Credentials := ⟨"0xPK", "", "mainnet", "0xVAULT"⟩

/-- Same signing inputs as `sampleCredentials` (private key, vault) but a
different network and wallet override. -/
def sampleCredentials2 : Credentials := ⟨"0xPK", "0xWALLET", "testnet", "0xVAULT"⟩

/-- An `allMids` response holding mid price `"100"` for `xyz:XYZ100`. -/
def sampleMids : String → Option String :=
  fun a => if a = "xyz:XYZ100" then some "100" else none

/-- The order action a limit `placeOrder` of 1.0 `xyz:XYZ100` at price
`100.5` builds. -/
def samplePlaceAction : JVal :=
  JVal.jobj
    [("type", JVal.jstr "order"),
     ("orders", JVal.jarr [orderObj "B" "100.5" "1.0" false "limit" "xyz:XYZ100"]),
     ("grouping", JVal.jstr "na")]

/-- The signed dispatch of that limit order under the sample fixtures. -/
def samplePlaceSd : SignedDispatch :=
  signAndDispatch sampleCrypto "0xPK" "0xVAULT" samplePlaceAction 1700000000000

/-- A three-item batch body whose middle item fails in transport. -/
def sampleStep : ℕ → Except String JVal :=
  fun i => if i = 1 then Except.error "transport error" else Except.ok (JVal.jstr "filled")

/-! ## Theorems -/

/-- Every sign-and-dispatch block keeps the hashed-and-signed envelope
intact in the request body, whether or not a vault address is set. -/
lemma envelopeIntact_signAndDispatch (crypto : Crypto) (pk vault : String)
    (action : JVal) (nonce : ℕ) :
    envelopeIntact (signAndDispatch crypto pk vault action nonce) := by
  have hext : extractEnvelope (signAndDispatch crypto pk vault action nonce).body
      = (signAndDispatch crypto pk vault action nonce).message := by
    by_cases hv : vault = ""
    · subst hv; rfl
    · simp [signAndDispatch, extractEnvelope, fieldEntry, JVal.getField,
        envelopeFields, hv, List.lookup]
  refine ⟨?_, ?_, ?_, by rw [hext]⟩ <;>
    by_cases hv : vault = "" <;>
      simp [signAndDispatch, JVal.getField, envelopeFields, hv, List.lookup]

/-- Claim C1: in every signed operation (`placeOrder`, `cancelOrder`,
`cancelAllOrders`) the `action`, `nonce` and `vaultAddress` values of the
dispatched request body are identical — byte-identical under the
canonical serialization — to those of the envelope that was hashed and
signed; no field is mutated between signing and sending. -/
theorem signed_envelope_unchanged (crypto : Crypto) (credentials : Credentials)
    (now : ℕ) (asset side size orderType : String) (reduceOnly : Bool)
    (price : String) (mids : String → Option String)
    (orderId coin cancelAsset : String) (sd : SignedDispatch)
    (hplace : placeOrderRun crypto credentials now asset side size orderType
        reduceOnly price mids = Except.ok sd) :
    envelopeIntact sd ∧
    envelopeIntact (cancelOrderRun crypto credentials now orderId coin) ∧
    envelopeIntact (cancelAllOrdersRun crypto credentials now cancelAsset) := by
  refine ⟨?_, envelopeIntact_signAndDispatch _ _ _ _ _,
    envelopeIntact_signAndDispatch _ _ _ _ _⟩
  cases hbuild : buildOrderAction asset side size orderType reduceOnly price mids with
  | error e => rw [placeOrderRun, hbuild] at hplace; exact absurd hplace (by simp [Except.map])
  | ok action =>
    rw [placeOrderRun, hbuild] at hplace
    simp only [Except.map] at hplace
    cases hplace
    exact envelopeIntact_signAndDispatch _ _ _ _ _

/-- Witness for C1: the sample limit order, a `cancelOrder` and a
`cancelAllOrders`, run on the sample fixtures, all keep their signed
envelope intact in the dispatched body. -/
theorem signed_envelope_unchanged_witness :
    placeOrderRun sampleCrypto sampleCredentials 1700000000000 "xyz:XYZ100" "B"
        "1.0" "limit" false "100.5" sampleMids = Except.ok samplePlaceSd ∧
    envelopeIntact samplePlaceSd ∧
    envelopeIntact (cancelOrderRun sampleCrypto sampleCredentials 1700000000000 "42" "xyz:XYZ100") ∧
    envelopeIntact (cancelAllOrdersRun sampleCrypto sampleCredentials 1700000000000 "xyz:XYZ100") :=
  ⟨rfl, signed_envelope_unchanged sampleCrypto sampleCredentials 1700000000000
    "xyz:XYZ100" "B" "1.0" "limit" false "100.5" sampleMids
    "42" "xyz:XYZ100" "xyz:XYZ100" samplePlaceSd rfl⟩

/-- Claim C2: for a market `placeOrder` whose parsed mid price is `q`,
the computed `limitPx` is `q * 1.05` on a buy (`B`) and `q * 0.95` on a
sell (`A`), and that exact value (rendered to a string) is the `p` field
of the built order. -/
theorem market_order_limitPx (asset size price : String) (reduceOnly : Bool)
    (mids : String → Option String) (midStr : String) (q : ℚ)
    (hasset : includesChar asset ':' = true) (hmid : mids asset = some midStr)
    (hne : midStr ≠ "") (hq : jsParseFloat midStr = some q) :
    marketLimitPx "B" q = q * 1.05 ∧ marketLimitPx "A" q = q * 0.95 ∧
    (buildOrderAction asset "B" size "market" reduceOnly price mids).map firstOrderP
      = Except.ok (some (JVal.jstr (jnumToString (q * 1.05)))) ∧
    (buildOrderAction asset "A" size "market" reduceOnly price mids).map firstOrderP
      = Except.ok (some (JVal.jstr (jnumToString (q * 0.95)))) := by
  refine ⟨rfl, rfl, ?_, ?_⟩ <;>
    simp [buildOrderAction, hasset, hmid, hne, hq, marketLimitPx, firstOrderP,
      JVal.getField, List.lookup, orderObj, Except.map]

/-- Witness for C2: with mid price `"100"` for `xyz:XYZ100`, a market buy
builds `limitPx = "105"` and a market sell builds `limitPx = "95"`. -/
theorem market_order_limitPx_witness :
    (buildOrderAction "xyz:XYZ100" "B" "1.0" "market" false "" sampleMids).map firstOrderP
      = Except.ok (some (JVal.jstr "105")) ∧
    (buildOrderAction "xyz:XYZ100" "A" "1.0" "market" false "" sampleMids).map firstOrderP
      = Except.ok (some (JVal.jstr "95")) := by
  have hq : jsParseFloat "100" = some 100 := by
    have h0 : jsParseFloat "100" = some ((100 : ℚ) + (0 : ℚ) / (10 : ℚ) ^ (0 : ℕ)) := rfl
    rw [h0]; norm_num
  have h := market_order_limitPx "xyz:XYZ100" "1.0" "" false sampleMids "100" 100
    rfl rfl (by decide) hq
  have e1 : jnumToString ((100 : ℚ) * 1.05) = "105" := by
    rw [show (100 : ℚ) * 1.05 = 105 from by norm_num]; decide
  have e2 : jnumToString ((100 : ℚ) * 0.95) = "95" := by
    rw [show (100 : ℚ) * 0.95 = 95 from by norm_num]; decide
  exact ⟨by rw [h.2.2.1, e1], by rw [h.2.2.2, e2]⟩

/-- Claim C5: for a limit `placeOrder` past the asset check, an empty
price fails with the price validation error, and a non-empty price is
carried into the `p` field exactly, with no re-encoding. -/
theorem limit_price_exact (asset side size price : String) (reduceOnly : Bool)
    (mids : String → Option String) (hasset : includesChar asset ':' = true) :
    (price = "" → buildOrderAction asset side size "limit" reduceOnly price mids
        = Except.error NodeError.priceRequired) ∧
    (price ≠ "" →
      (buildOrderAction asset side size "limit" reduceOnly price mids).map firstOrderP
        = Except.ok (some (JVal.jstr price))) := by
  constructor <;> intro hp <;>
    simp [buildOrderAction, hasset, hp, firstOrderP, JVal.getField, List.lookup,
      orderObj, Except.map]

/-- Witness for C5: empty price rejected, price `"100.5"` carried
verbatim. -/
theorem limit_price_exact_witness :
    buildOrderAction "xyz:XYZ100" "B" "1.0" "limit" false "" sampleMids
      = Except.error NodeError.priceRequired ∧
    (buildOrderAction "xyz:XYZ100" "B" "1.0" "limit" false "100.5" sampleMids).map firstOrderP
      = Except.ok (some (JVal.jstr "100.5")) :=
  ⟨(limit_price_exact "xyz:XYZ100" "B" "1.0" "" false sampleMids rfl).1 rfl,
   (limit_price_exact "xyz:XYZ100" "B" "1.0" "100.5" false sampleMids rfl).2 (by decide)⟩

/-- Counterexample to claim C3 as stated: with `orderId = "abc"` the
`cancelOrder` operation does **not** fail with a validation error — it
completes, building and signing a cancel action whose `o` field is the
serialization of `NaN`, i.e. JSON `null`, and dispatches it. -/
theorem cancelOrder_nonint_counterexample :
    cancelOrderRun sampleCrypto sampleCredentials 1700000000000 "abc" "xyz:XYZ100"
      = signAndDispatch sampleCrypto "0xPK" "0xVAULT"
          (JVal.jobj
            [("type", JVal.jstr "cancel"),
             ("cancels", JVal.jarr
               [JVal.jobj
                 [("a", JVal.jnum 0), ("o", JVal.jnull),
                  ("c", JVal.jstr "xyz:XYZ100")]])])
          1700000000000 := rfl

/-- Claim C3 as amended: a `cancelOrder` whose `orderId` parses as an
integer builds a cancel action carrying that integer; a non-parsing
`orderId` raises no error at all — `parseInt` yields `NaN`, the action is
built with `o` serializing to `null`, and it is signed and dispatched
unconditionally. -/
theorem cancelOrder_parseInt_behavior (orderId coin : String) (crypto : Crypto)
    (credentials : Credentials) (now : ℕ) :
    (∀ k : ℤ, jsParseInt orderId = some k →
      buildCancelAction orderId coin = JVal.jobj
        [("type", JVal.jstr "cancel"),
         ("cancels", JVal.jarr
           [JVal.jobj
             [("a", JVal.jnum 0), ("o", JVal.jnum (k : ℚ)), ("c", JVal.jstr coin)]])]) ∧
    (jsParseInt orderId = none →
      buildCancelAction orderId coin = JVal.jobj
        [("type", JVal.jstr "cancel"),
         ("cancels", JVal.jarr
           [JVal.jobj
             [("a", JVal.jnum 0), ("o", JVal.jnull), ("c", JVal.jstr coin)]])]) ∧
    cancelOrderRun crypto credentials now orderId coin
      = signAndDispatch crypto credentials.privateKey credentials.vaultAddress
          (buildCancelAction orderId coin) now ∧
    jsParseInt "42" = some 42 := by
  refine ⟨?_, ?_, rfl, by decide⟩
  · intro k hk; simp [buildCancelAction, hk]
  · intro hk; simp [buildCancelAction, hk]

/-- Witness for the amended C3: `"42"` parses to integer `42` and is
carried into the cancel action; `"abc"` yields the `null` `o` field. -/
theorem cancelOrder_parseInt_behavior_witness :
    buildCancelAction "42" "xyz:XYZ100" = JVal.jobj
      [("type", JVal.jstr "cancel"),
       ("cancels", JVal.jarr
         [JVal.jobj
           [("a", JVal.jnum 0), ("o", JVal.jnum ((42 : ℤ) : ℚ)),
            ("c", JVal.jstr "xyz:XYZ100")]])] ∧
    buildCancelAction "abc" "abc:COIN" = JVal.jobj
      [("type", JVal.jstr "cancel"),
       ("cancels", JVal.jarr
         [JVal.jobj
           [("a", JVal.jnum 0), ("o", JVal.jnull), ("c", JVal.jstr "abc:COIN")]])] :=
  ⟨(cancelOrder_parseInt_behavior "42" "xyz:XYZ100" sampleCrypto sampleCredentials 0).1
      42 (by decide),
   (cancelOrder_parseInt_behavior "abc" "abc:COIN" sampleCrypto sampleCredentials 0).2.1
      (by decide)⟩

/-- A character that occurs in the character list of a string is found by
`includesChar`. -/
lemma includesChar_of_mem {s : String} {c : Char} (h : c ∈ s.data) :
    includesChar s c = true :=
  List.elem_eq_true_of_mem h

/-- Claim C4: a `placeOrder` asset with exactly one `:` separator never
triggers the asset-format validation error (and a limit order with a
price builds outright); an asset without `:` always fails with the
asset-format validation error. -/
theorem asset_format_validation (asset side size orderType price : String)
    (reduceOnly : Bool) (mids : String → Option String) :
    (asset.data.count ':' = 1 →
      buildOrderAction asset side size orderType reduceOnly price mids
        ≠ Except.error NodeError.assetFormat) ∧
    (asset.data.count ':' = 1 → price ≠ "" →
      (buildOrderAction asset side size "limit" reduceOnly price mids).isOk = true) ∧
    (includesChar asset ':' = false →
      buildOrderAction asset side size orderType reduceOnly price mids
        = Except.error NodeError.assetFormat) := by
  have hmem : asset.data.count ':' = 1 → includesChar asset ':' = true := by
    intro h1
    refine includesChar_of_mem ?_
    by_contra hmem
    rw [List.count_eq_zero.mpr hmem] at h1
    exact absurd h1 (by decide)
  refine ⟨?_, ?_, ?_⟩
  · intro h1 heq
    have hc := hmem h1
    simp only [buildOrderAction, hc] at heq
    by_cases ht : orderType = "limit"
    · by_cases hp : price = "" <;> simp [ht, hp, Except.map] at heq
    · rcases hm : mids asset with _ | midPrice
      · simp [ht, hm, Except.map] at heq
      · by_cases hmp : midPrice = "" <;> simp [ht, hm, hmp, Except.map] at heq
  · intro h1 hp
    have hc := hmem h1
    simp [buildOrderAction, hc, hp, Except.map, Except.isOk, Except.toBool]
  · intro h
    simp [buildOrderAction, h]

/-- Witness for C4: `xyz:XYZ100` (one separator) passes the asset check
and builds; `xyzXYZ100` (no separator) is rejected with the asset-format
error. -/
theorem asset_format_validation_witness :
    buildOrderAction "xyz:XYZ100" "B" "1.0" "limit" false "100.5" sampleMids
        ≠ Except.error NodeError.assetFormat ∧
    (buildOrderAction "xyz:XYZ100" "B" "1.0" "limit" false "100.5" sampleMids).isOk = true ∧
    buildOrderAction "xyzXYZ100" "B" "1.0" "limit" false "100.5" sampleMids
        = Except.error NodeError.assetFormat :=
  ⟨(asset_format_validation "xyz:XYZ100" "B" "1.0" "limit" "100.5" false sampleMids).1
      (by decide),
   (asset_format_validation "xyz:XYZ100" "B" "1.0" "limit" "100.5" false sampleMids).2.1
      (by decide) (by decide),
   (asset_format_validation "xyzXYZ100" "B" "1.0" "limit" "100.5" false sampleMids).2.2
      (by decide)⟩

/-- Claim C6: the effective trading address resolves with priority
`vaultAddress`, then the explicit `walletAddress` override, then the
key-derived address; when both vault and wallet override are set, the
vault address wins. -/
theorem effective_address_priority (credentials : Credentials) (derivedAddress : String) :
    (credentials.vaultAddress ≠ "" →
      effectiveAddress credentials derivedAddress = credentials.vaultAddress) ∧
    (credentials.vaultAddress = "" → credentials.walletAddress ≠ "" →
      effectiveAddress credentials derivedAddress = credentials.walletAddress) ∧
    (credentials.vaultAddress = "" → credentials.walletAddress = "" →
      effectiveAddress credentials derivedAddress = derivedAddress) ∧
    (∀ pk net, effectiveAddress ⟨pk, "0xWWW", net, "0xVVV"⟩ derivedAddress = "0xVVV") := by
  refine ⟨?_, ?_, ?_, ?_⟩ <;> intros <;> simp [effectiveAddress, jsOr, *]

/-- Witness for C6: all three priority levels at concrete credentials,
including vault `0xVVV` beating wallet override `0xWWW`. -/
theorem effective_address_priority_witness :
    effectiveAddress ⟨"0xPK", "0xWWW", "mainnet", "0xVVV"⟩ "0xDERIVED" = "0xVVV" ∧
    effectiveAddress ⟨"0xPK", "0xWWW", "mainnet", ""⟩ "0xDERIVED" = "0xWWW" ∧
    effectiveAddress ⟨"0xPK", "", "mainnet", ""⟩ "0xDERIVED" = "0xDERIVED" :=
  ⟨(effective_address_priority ⟨"0xPK", "0xWWW", "mainnet", "0xVVV"⟩ "0xDERIVED").1
      (by decide),
   (effective_address_priority ⟨"0xPK", "0xWWW", "mainnet", ""⟩ "0xDERIVED").2.1
      rfl (by decide),
   (effective_address_priority ⟨"0xPK", "", "mainnet", ""⟩ "0xDERIVED").2.2.1 rfl rfl⟩

/-- With isolation on, every item contributes exactly its isolated
result. -/
lemma runItems_true (step : ℕ → Except String JVal) :
    ∀ l : List ℕ, runItems true step l = Except.ok (l.map (isolatedItem step)) := by
  intro l
  induction l with
  | nil => rfl
  | cons i rest ih =>
    cases h : step i <;> simp [runItems, h, ih, Except.map, isolatedItem]

/-- With isolation off, the first failing item aborts the whole run. -/
lemma runItems_false_abort (step : ℕ → Except String JVal) (e : String) (i : ℕ)
    (hi : step i = Except.error e) :
    ∀ l1 l2, (∀ j ∈ l1, (step j).isOk = true) →
      runItems false step (l1 ++ i :: l2) = Except.error e := by
  intro l1
  induction l1 with
  | nil => intro l2 _; simp [runItems, hi]
  | cons j l1 ih =>
    intro l2 hok
    have hj := hok j (List.mem_cons_self j l1)
    cases hjs : step j with
    | error m =>
      rw [hjs] at hj
      exact absurd hj (by simp [Except.isOk, Except.toBool])
    | ok v =>
      simp [runItems, hjs, ih l2 (fun a ha => hok a (List.mem_cons_of_mem _ ha)), Except.map]

/-- Claim C7: with per-item error isolation on (`continueOnFail`), the
batch yields one entry per input item — failed item `i` becomes
`{error: message}` paired to `i`, the rest are processed normally; with
isolation off, the first error aborts the batch with no output at all,
so no item after the failing one produces a result. -/
theorem batch_error_isolation (step : ℕ → Except String JVal) (n : ℕ) :
    runBatch true step n = Except.ok ((List.range n).map (isolatedItem step)) ∧
    (∀ l, runBatch true step n = Except.ok l → l.length = n) ∧
    (∀ i e, i < n → (∀ j, j < i → (step j).isOk = true) → step i = Except.error e →
      runBatch false step n = Except.error e) := by
  refine ⟨runItems_true step (List.range n), ?_, ?_⟩
  · intro l hl
    rw [runBatch, runItems_true step (List.range n)] at hl
    injection hl with h
    subst h
    simp
  · intro i e hi hok hstep
    obtain ⟨k, hk⟩ : ∃ k, n - i = k + 1 := ⟨n - i - 1, by omega⟩
    have hdecomp : List.range n = List.range i ++ i :: List.range' (i + 1) k := by
      have happ := List.range'_append 0 i (n - i) 1
      have h3 : List.range' i (n - i) = i :: List.range' (i + 1) k := by
        rw [hk]; rfl
      rw [List.range_eq_range' n, List.range_eq_range' i, ← h3]
      rw [show n - i + i = n from by omega] at happ
      simpa using happ.symm
    rw [runBatch, hdecomp]
    exact runItems_false_abort step e i hstep (List.range i) _
      (fun j hj => hok j (List.mem_range.mp hj))

/-- Witness for C7: three items with item 1 (0-based) failing in
transport — isolation on yields three entries with entry 1 an error
entry; isolation off aborts with that error. -/
theorem batch_error_isolation_witness :
    runBatch true sampleStep 3 = Except.ok
      [⟨JVal.jstr "filled", 0⟩, ⟨errorJson "transport error", 1⟩, ⟨JVal.jstr "filled", 2⟩] ∧
    runBatch false sampleStep 3 = Except.error "transport error" := by
  constructor
  · rw [(batch_error_isolation sampleStep 3).1]; rfl
  · exact (batch_error_isolation sampleStep 3).2.2 1 "transport error" (by decide)
      (fun j hj => by
        have hj0 : j = 0 := by omega
        subst hj0; rfl) rfl

/-- Claim C8: signing is deterministic — the hash, signature and
`(r, s, v)` triple are a function of the `(action, nonce, vaultAddress,
privateKey)` tuple alone: two credential records agreeing on private key
and vault address (but possibly differing in network or wallet override)
produce identical signing output, for every crypto primitive instance. -/
theorem signing_deterministic (crypto : Crypto) (credA credB : Credentials)
    (now : ℕ) (action : JVal) (orderId coin asset : String)
    (hpk : credA.privateKey = credB.privateKey)
    (hv : credA.vaultAddress = credB.vaultAddress) :
    signAndDispatch crypto credA.privateKey credA.vaultAddress action now
      = signAndDispatch crypto credB.privateKey credB.vaultAddress action now ∧
    cancelOrderRun crypto credA now orderId coin
      = cancelOrderRun crypto credB now orderId coin ∧
    cancelAllOrdersRun crypto credA now asset
      = cancelAllOrdersRun crypto credB now asset ∧
    (cancelOrderRun crypto credA now orderId coin).hash
      = (cancelOrderRun crypto credB now orderId coin).hash ∧
    sigTripleOf (cancelOrderRun crypto credA now orderId coin)
      = sigTripleOf (cancelOrderRun crypto credB now orderId coin) := by
  simp [cancelOrderRun, cancelAllOrdersRun, hpk, hv]

/-- Witness for C8: the sample credentials and their
network/wallet-override variant sign a cancel identically. -/
theorem signing_deterministic_witness :
    cancelOrderRun sampleCrypto sampleCredentials 1700000000000 "42" "xyz:XYZ100"
      = cancelOrderRun sampleCrypto sampleCredentials2 1700000000000 "42" "xyz:XYZ100" ∧
    sigTripleOf (cancelOrderRun sampleCrypto sampleCredentials 1700000000000 "42" "xyz:XYZ100")
      = sigTripleOf (cancelOrderRun sampleCrypto sampleCredentials2 1700000000000 "42" "xyz:XYZ100") :=
  ⟨(signing_deterministic sampleCrypto sampleCredentials sampleCredentials2 1700000000000
      JVal.jnull "42" "xyz:XYZ100" "xyz:XYZ100" rfl rfl).2.1,
   (signing_deterministic sampleCrypto sampleCredentials sampleCredentials2 1700000000000
      JVal.jnull "42" "xyz:XYZ100" "xyz:XYZ100" rfl rfl).2.2.2.2⟩

/-- Claim C9: `getPositions` and `getAccountSummary` assemble the very
same info request — `POST {baseUrl}/info` with body
`{type: clearinghouseState, user}` — for every effective user address. -/
theorem positions_summary_same_request (baseUrl address : String) :
    getPositionsRequest baseUrl address = getAccountSummaryRequest baseUrl address ∧
    (getPositionsRequest baseUrl address).url = baseUrl ++ "/info" ∧
    (getPositionsRequest baseUrl address).body
      = JVal.jobj [("type", JVal.jstr "clearinghouseState"), ("user", JVal.jstr address)] :=
  ⟨rfl, rfl, rfl⟩

/-- Claim C10: `cancelAllOrders` performs no asset-format validation —
for any asset string, colon-free included, it builds, signs and
dispatches the `cancelByCloid` action (the action appears in both the
signed envelope and the body), while `placeOrder` rejects the same
string with the asset-format validation error. -/
theorem cancelAll_no_asset_validation (crypto : Crypto) (credentials : Credentials)
    (now : ℕ) (asset side size orderType price : String) (reduceOnly : Bool)
    (mids : String → Option String) (hnc : includesChar asset ':' = false) :
    (cancelAllOrdersRun crypto credentials now asset).message.getField "action"
      = some (buildCancelAllAction asset) ∧
    (cancelAllOrdersRun crypto credentials now asset).body.getField "action"
      = some (buildCancelAllAction asset) ∧
    buildCancelAllAction asset = JVal.jobj
      [("type", JVal.jstr "cancelByCloid"),
       ("cancels", JVal.jarr [JVal.jobj [("asset", JVal.jstr asset), ("cloid", JVal.jnull)]])] ∧
    buildOrderAction asset side size orderType reduceOnly price mids
      = Except.error NodeError.assetFormat := by
  refine ⟨?_, ?_, rfl, by simp [buildOrderAction, hnc]⟩ <;>
    simp [cancelAllOrdersRun, signAndDispatch, envelopeFields, JVal.getField, List.lookup]

/-- Witness for C10: the colon-free asset `noColonAsset` is cancelled
without validation but rejected by `placeOrder`. -/
theorem cancelAll_no_asset_validation_witness :
    (cancelAllOrdersRun sampleCrypto sampleCredentials 1700000000000 "noColonAsset").message.getField "action"
      = some (buildCancelAllAction "noColonAsset") ∧
    buildOrderAction "noColonAsset" "B" "1.0" "limit" false "100.5" sampleMids
      = Except.error NodeError.assetFormat :=
  ⟨(cancelAll_no_asset_validation sampleCrypto sampleCredentials 1700000000000 "noColonAsset"
      "B" "1.0" "limit" "100.5" false sampleMids (by decide)).1,
   (cancelAll_no_asset_validation sampleCrypto sampleCredentials 1700000000000 "noColonAsset"
      "B" "1.0" "limit" "100.5" false sampleMids (by decide)).2.2.2⟩










